import Mathlib

/-!
Verification of the relation-discovery and clustering pipeline of the
tmad4000/xAIHack repository (CityVoice).

The Python sources `enhance_clusters.py`, `find_related_items.py` and
`add_topics.py` are shallowly embedded below: pure functions become Lean
functions, the imperative loops become folds or fuel-indexed recursions,
Python dictionaries keyed in insertion order become association lists, and
Python `set`s become `Finset`s.  Fallible operations (LLM calls, JSON
parsing by the external `json` module) are modelled as explicit
`Except` / `Option`-valued parameters, matching the spec's treatment of
third-party clients as opaque collaborators.  Scores computed with Python
float division are modelled with exact rational arithmetic.
-/

namespace CityVoice

/-- An item / node of the graph document (`connections.json` node shape:
`id`, `username`, `summary`, `date`, `link`).  In `find_related_items.py`
the same data is carried under the CSV-style keys `Username`,
`Summary/Quote`, `Date`, `Link`; we use one record for both shapes. -/
structure Node where
  id : Int
  username : String
  summary : String
  date : String
  link : String
deriving DecidableEq, Repr

/-- An edge of the graph document: `{source_id, target_id, reason}`. -/
structure Edge where
  source_id : Int
  target_id : Int
  reason : String
deriving DecidableEq, Repr

/-- A cluster produced by `detect_clusters` in `enhance_clusters.py`:
`{'id': cluster_id, 'topic': topic, 'nodes': [...]}`. -/
structure Cluster where
  id : Nat
  topic : String
  nodes : List Node
deriving DecidableEq, Repr

/-- Substring containment: `needle` occurs contiguously in `haystack`,
the semantics of Python's `kw in text` on strings (on lists of
characters). -/
def containsSub (haystack needle : List Char) : Bool :=
  (List.range (haystack.length + 1)).any
    (fun i => ((haystack.drop i).take needle.length) == needle)

/-- Lower-cased character list of a string, the embedding of Python's
`text.lower()` (ASCII case folding, `Char.toLower`). -/
def lowerChars (s : String) : List Char :=
  s.data.map Char.toLower

/-- The fixed ordered topic/keyword table `topic_keywords` of
`enhance_clusters.py` (`detect_clusters`, lines 69-76).  Python dicts
iterate in insertion order, so a list of pairs is the faithful model. -/
def topic_keywords : List (String × List String) :=
  [("Housing", ["housing", "home", "apartment", "adu", "dwelling", "zoning",
                "residential", "units", "building", "dense", "homes"]),
   ("Transit", ["bus", "subway", "transit", "rail", "train", "metro",
                "transport", "commute", "lane"]),
   ("Sidewalks", ["sidewalk", "pedestrian", "street", "walk", "crosswalk",
                  "curb", "wider"]),
   ("Safety", ["safety", "safe", "police", "officer", "crime", "security",
               "enforcement", "cops"]),
   ("Green Space", ["green", "tree", "park", "garden", "nature",
                    "permeable", "flood"]),
   ("Schools", ["school", "student", "children", "kids"])]

/-- `classify_node` from `enhance_clusters.py` (lines 79-84): lower-case
the summary, walk the keyword table in order, return the first topic one
of whose keywords occurs as a substring, else `Other`. -/
def classify_node (summary : String) : String :=
  let text := lowerChars summary
  match topic_keywords.find? (fun tk => tk.2.any (fun kw => containsSub text kw.data)) with
  | some tk => tk.1
  | none => "Other"

/-- One step of insertion-ordered grouping: append `n` to the group keyed
`t`, creating the group at the end when absent — the behaviour of
`defaultdict(list)` keyed in Python-dict insertion order. -/
def insertGroup (groups : List (String × List Node)) (t : String) (n : Node) :
    List (String × List Node) :=
  match groups with
  | [] => [(t, [n])]
  | (t', ns) :: rest =>
    if t' = t then (t', ns ++ [n]) :: rest
    else (t', ns) :: insertGroup rest t n

/-- `topic_groups` of `detect_clusters` (lines 87-90): group the nodes by
their classified topic, groups ordered by first occurrence, members in
input order. -/
def topic_groups (nodes : List Node) : List (String × List Node) :=
  nodes.foldl (fun gs n => insertGroup gs (classify_node n.summary) n) []

/-- The adjacency map of `detect_clusters` (lines 63-66), as a function:
`adjacency[x]` is the set of ids appearing opposite `x` in some edge.
`defaultdict(set)` makes lookup of an absent key the empty set. -/
def build_adjacency (edges : List Edge) (x : Int) : Finset Int :=
  ((edges.filter (fun e => e.source_id = x)).map Edge.target_id ++
   (edges.filter (fun e => e.target_id = x)).map Edge.source_id).toFinset

/-- Iteration order over the neighbor set `adjacency[current['id']]`
(a Python `set`; we fix the ascending order as the canonical
enumeration). -/
def neighborList (adj : Int → Finset Int) (x : Int) : List Int :=
  (adj x).sort (fun a b => a ≤ b)

/-- The body of the neighbor loop (lines 119-126): skip already-visited
ids, look the id up among the nodes of the current topic group
(`next((n for n in topic_nodes if n['id'] == neighbor_id), None)`). -/
def pickNew (topicNodes : List Node) (visited : Finset Int) (nid : Int) :
    Option Node :=
  if nid ∈ visited then none
  else topicNodes.find? (fun n => n.id == nid)

/-- The BFS `while queue:` loop of `detect_clusters` (lines 116-126),
fuel-indexed.  Each iteration pops the queue head, gathers its
not-yet-visited neighbors that belong to the same topic group, and
appends them to the cluster, the visited set and the queue.  The number
of loop iterations equals the number of nodes ever enqueued, which is
bounded by the size of the topic group, so fuel
`topicNodes.length + 1` is never exhausted. -/
def bfsLoop (adj : Int → Finset Int) (topicNodes : List Node) :
    Nat → List Node → Finset Int → List Node → List Node × Finset Int
  | 0, _, visited, cluster => (cluster, visited)
  | _ + 1, [], visited, cluster => (cluster, visited)
  | fuel + 1, current :: rest, visited, cluster =>
    let news := (neighborList adj current.id).filterMap (pickNew topicNodes visited)
    bfsLoop adj topicNodes fuel (rest ++ news)
      (visited ∪ (news.map Node.id).toFinset) (cluster ++ news)

/-- The outer `for node in topic_nodes:` loop of `detect_clusters`
(lines 107-134, membership bookkeeping only): each unvisited node seeds a
BFS whose result list is one connected component. -/
def componentsLoop (adj : Int → Finset Int) (topicNodes : List Node) :
    List Node → Finset Int → List (List Node)
  | [], _ => []
  | n :: rest, visited =>
    if n.id ∈ visited then componentsLoop adj topicNodes rest visited
    else
      let r := bfsLoop adj topicNodes (topicNodes.length + 1) [n]
        (insert n.id visited) [n]
      r.1 :: componentsLoop adj topicNodes rest r.2

/-- Connected components of one topic group, starting from an empty
visited set. -/
def group_components (adj : Int → Finset Int) (topicNodes : List Node) :
    List (List Node) :=
  componentsLoop adj topicNodes topicNodes ∅

/-- Number a list of components as clusters of topic `t`, ids counting up
from `start` — the `cluster_id += 1` bookkeeping of lines 128-134. -/
def numberClusters (t : String) (start : Nat) (comps : List (List Node)) :
    List Cluster :=
  comps.enum.map (fun p => { id := start + p.1, topic := t, nodes := p.2 })

/-- The `for topic, topic_nodes in topic_groups.items():` loop of
`detect_clusters` (lines 96-134): a group of size at most 2 becomes one
cluster unchanged; a larger group is split into its connected components
within the group. -/
def clustersFromGroups (adj : Int → Finset Int) :
    Nat → List (String × List Node) → List Cluster
  | _, [] => []
  | cid, (t, tns) :: rest =>
    if tns.length ≤ 2 then
      { id := cid, topic := t, nodes := tns } :: clustersFromGroups adj (cid + 1) rest
    else
      let comps := group_components adj tns
      numberClusters t cid comps ++ clustersFromGroups adj (cid + comps.length) rest

/-- `detect_clusters` from `enhance_clusters.py` (lines 54-136): classify
every node, group by topic, and subdivide each topic group by graph
connectivity. -/
def detect_clusters (nodes : List Node) (edges : List Edge) : List Cluster :=
  clustersFromGroups (build_adjacency edges) 0 (topic_groups nodes)

/-! ## `find_related_items.py` -/

/-- A `{id, reason}` pair returned by one of the relation finders. -/
structure Rel where
  id : Int
  reason : String
deriving DecidableEq, Repr

/-- The `STOPWORDS` set of `find_related_items.py` (lines 38-45). -/
def STOPWORDS : List String :=
  ["the", "and", "for", "with", "that", "this", "from", "are", "was", "were",
   "have", "has", "had", "but", "not", "you", "your", "our", "their", "they",
   "them", "his", "her", "its", "into", "onto", "about", "after", "before",
   "over", "under", "between", "across", "more", "less", "than", "then",
   "also", "will", "would", "could", "should", "can", "may", "might", "just",
   "like", "time", "year", "month", "city", "new", "york", "san", "francisco",
   "make", "need", "want", "much", "many", "some", "most", "other", "same",
   "very", "really"]

/-- Scanner accumulating the current (reversed) run of characters
satisfying `p`; a character outside the class closes the run. -/
def chunkRunsAux (p : Char → Bool) : List Char → List Char → List (List Char)
  | [], cur => if cur = [] then [] else [cur.reverse]
  | c :: cs, cur =>
    if p c then chunkRunsAux p cs (c :: cur)
    else if cur = [] then chunkRunsAux p cs []
    else cur.reverse :: chunkRunsAux p cs []

/-- Maximal runs of characters satisfying `p`: the common core of
Python's `re.findall` over a one-character-class pattern and of
`str.split()`. -/
def chunkRuns (p : Char → Bool) (l : List Char) : List (List Char) :=
  chunkRunsAux p l []

/-- The character class of the regex in `tokenize_summary`:
lowercase letters, digits, or an apostrophe. -/
def isTokenChar (c : Char) : Bool :=
  (Char.ofNat 97 ≤ c ∧ c ≤ Char.ofNat 122) ∨
  (Char.ofNat 48 ≤ c ∧ c ≤ Char.ofNat 57) ∨ c = Char.ofNat 39

/-- Python `token.strip` over a single character `c`: remove all leading
and trailing occurrences of `c`. -/
def stripChar (c : Char) (w : List Char) : List Char :=
  ((w.dropWhile (fun d => d == c)).reverse.dropWhile (fun d => d == c)).reverse

/-- `tokenize_summary` from `find_related_items.py` (lines 212-220):
`re.findall` of the token character class over the lower-cased text, then
the set of apostrophe-stripped tokens whose stripped length is at least 3
and which (unstripped) are not stopwords. -/
def tokenize_summary (text : String) : Finset String :=
  ((chunkRuns isTokenChar (lowerChars text)).filterMap (fun tok =>
    let stripped := stripChar (Char.ofNat 39) tok
    if 3 ≤ stripped.length ∧ String.mk tok ∉ STOPWORDS then
      some (String.mk stripped)
    else none)).toFinset

/-- The similarity-gathering loop of `find_relations_keyword`
(lines 229-241): for every candidate other than the target with a
non-empty token set and a non-empty overlap with the target's tokens,
record `(score, overlap, item)` with
score = |overlap| / min(|target tokens|, |candidate tokens|)
(exact rational arithmetic in place of Python float division). -/
def keywordSimilarities (items : List Node) (target : Node) :
    List (ℚ × Finset String × Node) :=
  let targetTokens := tokenize_summary target.summary
  items.filterMap (fun item =>
    if item.id = target.id then none
    else
      let candidateTokens := tokenize_summary item.summary
      if candidateTokens = ∅ then none
      else
        let overlap := targetTokens ∩ candidateTokens
        if overlap = ∅ then none
        else some ((overlap.card : ℚ) / (min targetTokens.card candidateTokens.card : ℚ),
          overlap, item))

/-- The reason string of `find_relations_keyword` (lines 246-251):
the shared keywords, sorted, comma-joined. -/
def keywordReason (overlap : Finset String) : String :=
  "Shares keywords: " ++
    String.intercalate ", " (overlap.sort (fun a b => a ≤ b))

/-- `find_relations_keyword` from `find_related_items.py` (lines
223-253): empty target token set short-circuits to `[]`; otherwise the
similarities are stably sorted descending by score (Python
`list.sort(key=..., reverse=True)`), the top 5 are kept, and each yields
a `{id, reason}` pair. -/
def find_relations_keyword (items : List Node) (target : Node) : List Rel :=
  if tokenize_summary target.summary = ∅ then []
  else
    let sorted := (keywordSimilarities items target).mergeSort
      (fun a b => decide (b.1 ≤ a.1))
    (sorted.take 5).map (fun s => { id := s.2.2.id, reason := keywordReason s.2.1 })

/-- The accumulation loop of `find_all_relations` (lines 271-290): each
item's relations are computed inside a `try`; on success they are
appended as `{source_id, target_id, reason}` records, on any exception
the item is skipped (`continue`) and contributes nothing. -/
def relationsLoop (items : List Node)
    (find_fn : List Node → Node → Except String (List Rel)) : List Edge :=
  items.foldl (fun acc item =>
    match find_fn items item with
    | Except.ok rels =>
      acc ++ rels.map (fun r =>
        { source_id := item.id, target_id := r.id, reason := r.reason })
    | Except.error _ => acc) []

/-- `find_all_relations` from `find_related_items.py` (lines 256-290):
the provider string is dispatched before the item loop starts; an
unsupported provider raises `ValueError` (modelled as `Except.error`)
with no item processed.  The `anthropic` and `openai` finders are opaque
LLM-backed collaborators passed in as parameters; the `keyword` finder is
the pure `find_relations_keyword`, which cannot raise. -/
def find_all_relations (provider : String)
    (anthropicFinder openaiFinder : List Node → Node → Except String (List Rel))
    (items : List Node) : Except String (List Edge) :=
  if provider = "anthropic" then Except.ok (relationsLoop items anthropicFinder)
  else if provider = "openai" then Except.ok (relationsLoop items openaiFinder)
  else if provider = "keyword" then
    Except.ok (relationsLoop items (fun its t => Except.ok (find_relations_keyword its t)))
  else
    Except.error ("Unsupported provider '" ++ provider ++
      "'. Expected anthropic, openai, or keyword.")

/-- The provider-selection logic of `main` in `find_related_items.py`
(lines 379-406): the `--provider` argument defaults to `anthropic`, the
`CITYVOICE_RELATION_PROVIDER` environment variable overrides it, a
recognized LLM provider without its library or API key falls back to
`keyword`, and any remaining unknown provider name is replaced by
`keyword` with a warning.  `availability_fallback` is the
library/API-key availability check (lines 389-402). -/
def availability_fallback (p : String)
    (hasAnthropicLib hasAnthropicKey hasOpenaiLib hasOpenaiKey : Bool) : String :=
  if p = "anthropic" then
    if !hasAnthropicLib then "keyword"
    else if !hasAnthropicKey then "keyword"
    else p
  else if p = "openai" then
    if !hasOpenaiLib then "keyword"
    else if !hasOpenaiKey then "keyword"
    else p
  else p

/-- The final normalization of `main` (lines 404-406): any provider name
still outside the recognized set is replaced by `keyword` with a
warning. -/
def normalize_provider (p : String) : String :=
  if p = "anthropic" ∨ p = "openai" ∨ p = "keyword" then p else "keyword"

/-- The complete provider resolution of `main` (lines 379-406): argument
default `anthropic`, environment override, availability fallback, final
normalization. -/
def resolve_provider (argProvider envProvider : Option String)
    (hasAnthropicLib hasAnthropicKey hasOpenaiLib hasOpenaiKey : Bool) : String :=
  normalize_provider
    (availability_fallback (envProvider.getD (argProvider.getD "anthropic"))
      hasAnthropicLib hasAnthropicKey hasOpenaiLib hasOpenaiKey)

/-- The stored graph document `connections.json`:
`{nodes, edges, ...other fields...}`.  Top-level fields other than
`nodes` and `edges` (for example `topics` or `metadata`) are carried
opaquely in `extra`. -/
structure GraphDoc where
  nodes : List Node
  edges : List Edge
  extra : List (String × String)
deriving DecidableEq, Repr

/-- `update_connections_json` from `find_related_items.py` (lines
345-371): an empty connection list returns before the file is even read;
otherwise the `edges` field is replaced wholesale by the new
`{source_id, target_id, reason}` records and everything else is written
back as loaded. -/
def update_connections_json (doc : GraphDoc) (connections : List Edge) : GraphDoc :=
  if connections = [] then doc
  else
    { doc with
      edges := connections.map (fun c =>
        { source_id := c.source_id, target_id := c.target_id, reason := c.reason }) }

/-! ## `enhance_clusters.py`: cluster labeling, demands and proposals -/

/-- The `{name, summary, action, consensus}` record produced by the
cluster labelers. -/
structure Analysis where
  name : String
  summary : String
  action : String
  consensus : String
deriving DecidableEq, Repr

/-- A demand extracted in phase 1
(`{description, tweet_ids, voices, count}`). -/
structure Demand where
  description : String
  tweet_ids : List Int
  voices : List String
  count : Nat
deriving DecidableEq, Repr

/-- A synthesized proposal from phase 2. -/
structure Proposal where
  title : String
  proposal : String
  supporting_demands : List String
  voices_represented : Nat
deriving DecidableEq, Repr

/-- The record appended to `enhanced_clusters` in `enhance_clusters`
(lines 384-401). -/
structure EnhancedCluster where
  id : Nat
  topic : String
  name : String
  summary : String
  action : String
  consensus : String
  node_count : Nat
  demands : List Demand
  synthesized_actions : List Proposal
  nodes : List Node
deriving DecidableEq, Repr

/-- The prompt of `generate_cluster_analysis_anthropic` (lines 255-277). -/
def analysisPrompt (cluster : Cluster) : String :=
  let ideas_text := String.intercalate "\n"
    (cluster.nodes.map (fun n => "- @" ++ n.username ++ ": " ++ n.summary))
  "Analyze this cluster of urban improvement ideas from NYC residents.\n\nTopic Category: "
    ++ cluster.topic
    ++ "\n\nIdeas in this cluster:\n"
    ++ ideas_text
    ++ "\n\nPlease provide:\n1. A concise cluster name (3-5 words) that captures the core theme\n2. A one-sentence summary of what these people are advocating for\n3. The key actionable recommendation for city officials (1-2 sentences)\n4. The level of consensus (High/Medium/Low) - are people saying the same thing or related but different things?\n\nFormat your response as JSON:\n\x7b\n    \"name\": \"...\",\n    \"summary\": \"...\",\n    \"action\": \"...\",\n    \"consensus\": \"...\"\n\x7d"

/-- The prompt of `extract_demands_anthropic` (lines 144-173). -/
def demandsPrompt (cluster : Cluster) : String :=
  let ideas_text := String.intercalate "\n"
    (cluster.nodes.map (fun n =>
      "[" ++ toString n.id ++ "] @" ++ n.username ++ ": " ++ n.summary))
  "Analyze these urban improvement suggestions from NYC residents and extract the DISTINCT actionable demands.\n\nIdeas:\n"
    ++ ideas_text
    ++ "\n\nYour task:\n1. Identify each DISTINCT demand/suggestion (not topics, but specific asks)\n2. Group semantically identical suggestions together (same demand, different words)\n3. Normalize each demand to a clear, actionable description\n\nFor example:\n- \"wider sidewalks\" and \"make sidewalks bigger\" = same demand\n- \"car-free school streets\" from multiple people = one demand with multiple voices\n\nReturn JSON:\n\x7b\n    \"demands\": [\n        \x7b\n            \"description\": \"Clear, normalized description of the demand\",\n            \"tweet_ids\": [1, 2, 3],\n            \"voices\": [\"@user1\", \"@user2\"],\n            \"count\": 2\n        \x7d\n    ]\n\x7d\n\nOnly include actual actionable demands. Merge similar ones."

/-- The prompt of `synthesize_actions_anthropic` (lines 200-233). -/
def synthesisPrompt (cluster : Cluster) (demands : List Demand) : String :=
  let demands_text := String.intercalate "\n"
    (demands.map (fun d =>
      "- " ++ d.description ++ " (" ++ toString d.count ++ " voice"
        ++ (if 1 < d.count then "s" else "") ++ ")"))
  "Given these citizen demands about " ++ cluster.topic ++ ":\n\n"
    ++ demands_text
    ++ "\n\nSynthesize 1-3 CONCRETE, IMPLEMENTABLE policy proposals that a city council could actually vote on.\n\nRequirements:\n- Be specific: include numbers, timelines, pilot programs\n- Combine related demands into unified proposals where sensible\n- Make them actionable, not vague recommendations\n- Include implementation mechanisms\n\nExample good proposal:\n\"Launch a 'School Streets' pilot program making blocks adjacent to 10 schools car-free during drop-off (7:30-8:30am) and pick-up (2:30-3:30pm). Start Fall 2025. Evaluate safety metrics after 6 months before citywide expansion.\"\n\nExample bad proposal:\n\"Consider making streets safer for children\" (too vague)\n\nReturn JSON:\n\x7b\n    \"synthesized_actions\": [\n        \x7b\n            \"title\": \"Short title (3-6 words)\",\n            \"proposal\": \"Detailed implementable proposal with specifics\",\n            \"supporting_demands\": [\"demand1\", \"demand2\"],\n            \"voices_represented\": 5\n        \x7d\n    ]\n\x7d"

/-- The `text.find('{') / text.rfind('}')` slice common to the three
parsers (for example lines 287-292): the substring from the first
opening brace to the last closing brace inclusive, `none` when the
braces are missing or out of order. -/
def braceSpan (text : List Char) : Option (List Char) :=
  match text.findIdx? (fun d => d == Char.ofNat 123),
        (text.reverse).findIdx? (fun d => d == Char.ofNat 125) with
  | some s, some k =>
    let e := text.length - 1 - k
    if s < e + 1 then some ((text.drop s).take (e + 1 - s)) else none
  | _, _ => none

/-- The hard-coded fallback dictionary returned by
`generate_cluster_analysis_anthropic` when the response cannot be parsed
(lines 296-301).  Note this is not `generate_cluster_analysis_simple`. -/
def analysisParseFallback (cluster : Cluster) : Analysis :=
  { name := cluster.topic,
    summary := "Multiple ideas related to " ++ cluster.topic.toLower,
    action := "Review and consolidate these citizen suggestions",
    consensus := "Medium" }

/-- `generate_cluster_analysis_anthropic` (lines 253-301).  The LLM call
`client.messages.create` is modelled by the opaque `llm` capability and
the external `json.loads` by `parseAnalysis`.  The `try` block covers
only the extraction and parsing of the response text: a parse failure
yields the inline fallback dictionary, but an exception raised by the
LLM call itself occurs before the `try` and propagates to the caller. -/
def generate_cluster_analysis_anthropic (llm : String → Except String String)
    (parseAnalysis : String → Option Analysis) (cluster : Cluster) :
    Except String Analysis :=
  match llm (analysisPrompt cluster) with
  | Except.error e => Except.error e
  | Except.ok text =>
    Except.ok (match braceSpan text.data with
      | some sub =>
        match parseAnalysis (String.mk sub) with
        | some a => a
        | none => analysisParseFallback cluster
      | none => analysisParseFallback cluster)

/-- `extract_demands_anthropic` (lines 139-190): same structure; parse
failure or a missing `demands` field yields `[]`, an exception from the
LLM call itself propagates. -/
def extract_demands_anthropic (llm : String → Except String String)
    (parseDemands : String → Option (List Demand)) (cluster : Cluster) :
    Except String (List Demand) :=
  match llm (demandsPrompt cluster) with
  | Except.error e => Except.error e
  | Except.ok text =>
    Except.ok (match braceSpan text.data with
      | some sub => (parseDemands (String.mk sub)).getD []
      | none => [])

/-- `synthesize_actions_anthropic` (lines 193-250): an empty demand list
returns `[]` before any LLM call; otherwise same structure as the other
two. -/
def synthesize_actions_anthropic (llm : String → Except String String)
    (parseProposals : String → Option (List Proposal)) (cluster : Cluster)
    (demands : List Demand) : Except String (List Proposal) :=
  if demands = [] then Except.ok []
  else
    match llm (synthesisPrompt cluster demands) with
    | Except.error e => Except.error e
    | Except.ok text =>
      Except.ok (match braceSpan text.data with
        | some sub => (parseProposals (String.mk sub)).getD []
        | none => [])

/-- The `topic_names` table of `generate_cluster_analysis_simple`
(lines 314-322). -/
def topic_names : List (String × String) :=
  [("Housing", "Housing Development"),
   ("Transit", "Transit Improvements"),
   ("Sidewalks", "Pedestrian Infrastructure"),
   ("Safety", "Public Safety"),
   ("Green Space", "Green Infrastructure"),
   ("Schools", "School Safety"),
   ("Other", "Urban Improvements")]

/-- `generate_cluster_analysis_simple` (lines 304-341): the rule-based
labeler, a pure function of the cluster. -/
def generate_cluster_analysis_simple (cluster : Cluster) : Analysis :=
  let summaries := (cluster.nodes.map Node.summary).filter (fun s => decide (s ≠ ""))
  let all_text := lowerChars (String.intercalate " " summaries)
  let base := ((topic_names.find? (fun p => p.1 == cluster.topic)).map Prod.snd).getD "Urban Ideas"
  let name :=
    if containsSub all_text ("staten island".data) then "Staten Island " ++ cluster.topic
    else if containsSub all_text ("bus lane".data) then "Bus Lane Expansion"
    else if containsSub all_text ("wider sidewalk".data) ∨ containsSub all_text ("sidewalk width".data) then
      "Sidewalk Width Reform"
    else if containsSub all_text ("dense".data) ∨ containsSub all_text ("density".data) then
      "Dense Development Advocacy"
    else base
  { name := name,
    summary := toString cluster.nodes.length ++ " citizens advocating for "
      ++ cluster.topic.toLower ++ " improvements",
    action := "Review and prioritize these " ++ cluster.topic.toLower
      ++ "-related suggestions",
    consensus := if 3 ≤ cluster.nodes.length then "High" else "Medium" }

/-- The body of the `for i, cluster in enumerate(clusters):` loop of
`enhance_clusters` when an LLM client is available (lines 369-401).
None of the three calls is wrapped in a `try` here, so an exception from
any of them propagates out of the loop. -/
def enhanceClusterAI (llm : String → Except String String)
    (parseAnalysis : String → Option Analysis)
    (parseDemands : String → Option (List Demand))
    (parseProposals : String → Option (List Proposal))
    (cluster : Cluster) : Except String EnhancedCluster := do
  let analysis ← generate_cluster_analysis_anthropic llm parseAnalysis cluster
  let demands ← extract_demands_anthropic llm parseDemands cluster
  let actions ← synthesize_actions_anthropic llm parseProposals cluster demands
  pure { id := cluster.id, topic := cluster.topic, name := analysis.name,
         summary := analysis.summary, action := analysis.action,
         consensus := analysis.consensus, node_count := cluster.nodes.length,
         demands := demands, synthesized_actions := actions,
         nodes := cluster.nodes }

/-- The full per-cluster loop of `enhance_clusters` with an LLM client:
clusters are processed strictly in sequence and the first uncaught
exception aborts the remainder of the run. -/
def enhance_clusters_ai (llm : String → Except String String)
    (parseAnalysis : String → Option Analysis)
    (parseDemands : String → Option (List Demand))
    (parseProposals : String → Option (List Proposal))
    (clusters : List Cluster) : Except String (List EnhancedCluster) :=
  clusters.mapM (enhanceClusterAI llm parseAnalysis parseDemands parseProposals)

/-- The per-cluster loop of `enhance_clusters` without an LLM client
(lines 379-401): the rule-based labeler, no demands, no proposals.
This path cannot fail. -/
def enhance_clusters_simple (clusters : List Cluster) : List EnhancedCluster :=
  clusters.map (fun cluster =>
    let analysis := generate_cluster_analysis_simple cluster
    { id := cluster.id, topic := cluster.topic, name := analysis.name,
      summary := analysis.summary, action := analysis.action,
      consensus := analysis.consensus, node_count := cluster.nodes.length,
      demands := [], synthesized_actions := [],
      nodes := cluster.nodes })

/-! ## `add_topics.py`: community labeling -/

/-- A record of the `topics` array written by `process_topics`
(lines 127-132; the frontend-owned `color` field is omitted). -/
structure TopicRec where
  id : String
  label : String
  count : Nat
deriving DecidableEq, Repr

/-- The `stop_words` set of `get_fallback_label` in `add_topics.py`
(line 74). -/
def fallback_stop_words : List String :=
  ["the", "a", "an", "and", "or", "but", "in", "on", "at", "to", "for",
   "of", "with", "is", "are", "be", "this", "that", "it", "city", "nyc",
   "new", "york"]

/-- Python `str.capitalize()` on an already produced token: first
character upper-cased, the rest lower-cased. -/
def capitalizeWord (w : List Char) : List Char :=
  match w with
  | [] => []
  | c :: cs => Char.toUpper c :: cs.map Char.toLower

/-- The word-gathering loop of `get_fallback_label` (lines 76-81):
lower-case each summary, delete periods and commas, split on whitespace,
keep non-stopwords longer than 3 characters, capitalized. -/
def fallbackWords (nodes : List Node) : List String :=
  nodes.flatMap (fun n =>
    (chunkRuns (fun c => !c.isWhitespace)
        ((lowerChars n.summary).filter
          (fun c => decide (c ≠ '.' ∧ c ≠ ',')))).filterMap
      (fun w =>
        if String.mk w ∉ fallback_stop_words ∧ 3 < w.length then
          some (String.mk (capitalizeWord w))
        else none))

/-- One `Counter` update: bump the count of `w`, first occurrence
appends at the end (Python dict insertion order). -/
def bumpCount (counts : List (String × Nat)) (w : String) : List (String × Nat) :=
  match counts with
  | [] => [(w, 1)]
  | (w', k) :: rest =>
    if w' = w then (w', k + 1) :: rest else (w', k) :: bumpCount rest w

/-- `Counter(words)` as an insertion-ordered association list. -/
def countWords (words : List String) : List (String × Nat) :=
  words.foldl bumpCount []

/-- `get_fallback_label` from `add_topics.py` (lines 71-89):
`Counter.most_common(2)` is a stable descending sort by count (ties keep
first-occurrence order), joined with " & "; an empty counter yields
"Group". -/
def get_fallback_label (nodes : List Node) : String :=
  let counts := countWords (fallbackWords nodes)
  if counts = [] then "Group"
  else
    let top := (counts.mergeSort (fun a b => decide (b.2 ≤ a.2))).take 2
    String.intercalate " & " (top.map Prod.fst)

/-- The per-community branch of `process_topics` in `add_topics.py`
(lines 107-132): a community of fewer than 2 members is hard-labeled
`Miscellaneous` with synthetic id `misc`; otherwise the LLM labeler
(the opaque `client`, modelling `label_community`) is tried when
available, falling back to `get_fallback_label` on exception or absence,
and the id is `topic_{idx}`. -/
def community_topic (client : Option (List Node → Except String String))
    (idx : Nat) (comm : List Node) : TopicRec :=
  if comm.length < 2 then
    { id := "misc", label := "Miscellaneous", count := comm.length }
  else
    let label :=
      match client with
      | some f =>
        match f comm with
        | Except.ok l => l
        | Except.error _ => get_fallback_label comm
      | none => get_fallback_label comm
    { id := "topic_" ++ toString idx, label := label, count := comm.length }

/-- The `topics` array accumulated over the enumerated communities in
`process_topics`.  Community detection itself
(`nx.community.greedy_modularity_communities`) is an external library
call; its output, the list of communities, is this function's input. -/
def process_topics_records (client : Option (List Node → Except String String))
    (communities : List (List Node)) : List TopicRec :=
  communities.enum.map (fun p => community_topic client p.1 p.2)

/-- Per-item contribution to the connection list of `find_all_relations`:
the relations the finder returns for the item, as
`{source_id, target_id, reason}` records, or nothing when the finder
raises. -/
def itemContribution (items : List Node)
    (find_fn : List Node → Node → Except String (List Rel)) (item : Node) :
    List Edge :=
  match find_fn items item with
  | Except.ok rels =>
    rels.map (fun r => { source_id := item.id, target_id := r.id, reason := r.reason })
  | Except.error _ => []

/-- Modelled from the spec (§4.3 Classifier), for comparison with the
source-derived `classify_node`: iterate the fixed ordered
table, return the first topic one of whose keywords matches the summary
text case-insensitively (both sides case-folded), `Other` when none
match. -/
def classifyFirst (summary : String) : List (String × List String) → String
  | [] => "Other"
  | (t, kws) :: rest =>
    if kws.any (fun kw => containsSub (lowerChars summary) (lowerChars kw)) then t
    else classifyFirst summary rest

/-- Modelled from the spec: the classifier as the spec words it, over the
same fixed table. -/
def classify_spec (summary : String) : String :=
  classifyFirst summary topic_keywords

/-! ## Theorems -/

theorem relationsLoop_foldl_append (f : List Node → Node → Except String (List Rel))
    (items : List Node) :
    ∀ (l : List Node) (acc : List Edge),
      l.foldl (fun acc item =>
        match f items item with
        | Except.ok rels =>
          acc ++ rels.map (fun r =>
            { source_id := item.id, target_id := r.id, reason := r.reason })
        | Except.error _ => acc) acc =
      acc ++ l.flatMap (itemContribution items f)
  | [], acc => by simp
  | item :: rest, acc => by
    have ih := relationsLoop_foldl_append f items rest
    simp only [List.foldl_cons, List.flatMap_cons]
    cases h : f items item with
    | ok rels =>
      rw [ih]
      simp [itemContribution, h, List.append_assoc]
    | error e =>
      rw [ih]
      simp [itemContribution, h]

/-- **C5.** For every item list and every per-item relation-finder, the
connection list accumulated by `find_all_relations` decomposes as the
concatenation of independent per-item contributions — so a failure on one
item leaves every other item's contribution intact and processing
continues — and an item on which the finder raises contributes zero
connections; the whole run still completes normally (`Except.ok`). -/
theorem find_all_relations_per_item_errors (items : List Node)
    (anthropicFinder openaiFinder : List Node → Node → Except String (List Rel)) :
    find_all_relations "anthropic" anthropicFinder openaiFinder items =
      Except.ok (items.flatMap (itemContribution items anthropicFinder)) ∧
    (∀ item e, anthropicFinder items item = Except.error e →
      itemContribution items anthropicFinder item = []) := by
  constructor
  · simp only [find_all_relations, if_true, reduceIte]
    rw [relationsLoop, relationsLoop_foldl_append]
    simp
  · intro item e h
    simp [itemContribution, h]

/-- Witness for C5: two concrete items, the finder raising on the first;
the run completes with only the second item's contribution. -/
theorem find_all_relations_per_item_errors_witness :
    find_all_relations "anthropic"
      (fun _ item => if item.id = 1 then Except.error "malformed response"
                     else Except.ok [{ id := 1, reason := "same street" }])
      (fun _ _ => Except.error "unused")
      [{ id := 1, username := "a", summary := "s", date := "", link := "" },
       { id := 2, username := "b", summary := "t", date := "", link := "" }] =
      Except.ok [{ source_id := 2, target_id := 1, reason := "same street" }] :=
  ((find_all_relations_per_item_errors
      [{ id := 1, username := "a", summary := "s", date := "", link := "" },
       { id := 2, username := "b", summary := "t", date := "", link := "" }]
      (fun _ item => if item.id = 1 then Except.error "malformed response"
                     else Except.ok [{ id := 1, reason := "same street" }])
      (fun _ _ => Except.error "unused")).1).trans (by rfl)

/-- **C4 (code bug).** The `try` of `generate_cluster_analysis_anthropic`
covers only response parsing; the LLM call itself sits before it, and the
per-cluster loop of `enhance_clusters` has no handler either.  So when
the LLM labeling call raises, the exception propagates past the cluster
boundary and aborts the whole run — no fallback label is produced — for
any cluster list beginning with the failing cluster.
Parse failures, by contrast, are absorbed into the inline fallback. -/
theorem enhance_clusters_llm_exception_aborts_run (e : String)
    (parseAnalysis : String → Option Analysis)
    (parseDemands : String → Option (List Demand))
    (parseProposals : String → Option (List Proposal))
    (cluster : Cluster) (rest : List Cluster) :
    generate_cluster_analysis_anthropic (fun _ => Except.error e) parseAnalysis cluster =
      Except.error e ∧
    enhance_clusters_ai (fun _ => Except.error e) parseAnalysis parseDemands parseProposals
      (cluster :: rest) = Except.error e :=
  ⟨rfl, rfl⟩

/-- **C7 counterexample.** A community of exactly 2 members — size ≤ 2 —
is *not* labeled `Miscellaneous`: it is handed to the labeling strategy
(`label_community` when a client exists) and numbered `topic_{idx}`,
because `process_topics` tests `len(comm) < 2`, not `≤ 2`. -/
theorem community_topic_size_two_counterexample :
    ([{ id := 1, username := "a", summary := "x", date := "", link := "" },
      { id := 2, username := "b", summary := "y", date := "", link := "" }] : List Node).length ≤ 2 ∧
    community_topic (some (fun _ => Except.ok "Bike Infrastructure")) 0
      [{ id := 1, username := "a", summary := "x", date := "", link := "" },
       { id := 2, username := "b", summary := "y", date := "", link := "" }] =
      { id := "topic_0", label := "Bike Infrastructure", count := 2 } :=
  ⟨by decide, rfl⟩

/-- **C7 (amended).** Only communities of size < 2 bypass both labeling
strategies and are hard-labeled `Miscellaneous` with the fixed synthetic
id `misc`; a community of size ≥ 2 (size 2 included) is passed to the
labeling machinery: its id is `topic_{idx}`, its label is the LLM
labeler's answer when one is available and succeeds, and the rule-based
`get_fallback_label` otherwise. -/
theorem community_topic_threshold
    (client : Option (List Node → Except String String)) (idx : Nat)
    (comm : List Node) :
    (comm.length < 2 →
      community_topic client idx comm =
        { id := "misc", label := "Miscellaneous", count := comm.length }) ∧
    (2 ≤ comm.length →
      (community_topic client idx comm).id = "topic_" ++ toString idx ∧
      (client = none →
        (community_topic client idx comm).label = get_fallback_label comm) ∧
      (∀ f l, client = some f → f comm = Except.ok l →
        (community_topic client idx comm).label = l) ∧
      (∀ f e, client = some f → f comm = Except.error e →
        (community_topic client idx comm).label = get_fallback_label comm)) := by
  constructor
  · intro h
    simp [community_topic, h]
  · intro h
    have h2 : ¬ comm.length < 2 := by omega
    refine ⟨by simp [community_topic, h2], ?_, ?_, ?_⟩
    · intro hc; simp [community_topic, h2, hc]
    · intro f l hc hf; simp [community_topic, h2, hc, hf]
    · intro f e hc hf; simp [community_topic, h2, hc, hf]

/-- Witness for C7's amended theorem: a singleton community is
`Miscellaneous`/`misc`; a 2-community with a failing LLM labeler falls
back to `get_fallback_label`. -/
theorem community_topic_threshold_witness :
    community_topic (some (fun _ => Except.error "down")) 4
      [{ id := 1, username := "a", summary := "bike lanes", date := "", link := "" }] =
      { id := "misc", label := "Miscellaneous", count := 1 } ∧
    (community_topic (some (fun _ => Except.error "down")) 4
      [{ id := 1, username := "a", summary := "bike lanes", date := "", link := "" },
       { id := 2, username := "b", summary := "bike lanes", date := "", link := "" }]).label =
      get_fallback_label
        [{ id := 1, username := "a", summary := "bike lanes", date := "", link := "" },
         { id := 2, username := "b", summary := "bike lanes", date := "", link := "" }] :=
  ⟨(community_topic_threshold (some (fun _ => Except.error "down")) 4 _).1 (by decide),
   ((community_topic_threshold (some (fun _ => Except.error "down")) 4 _).2 (by decide)).2.2.2
     (fun _ => Except.error "down") "down" rfl rfl⟩

unseal List.merge List.mergeSort in
/-- **C8 counterexample.** Through the `main` entry point, an
unrecognized provider string (here `grok`) is *not* a fatal
configuration error: `main` replaces it by `keyword` with a warning
before calling `find_all_relations`, and the run then completes
normally under the keyword strategy. -/
theorem invalid_provider_not_fatal_counterexample :
    resolve_provider (some "grok") none true true true true = "keyword" ∧
    find_all_relations (resolve_provider (some "grok") none true true true true)
      (fun _ _ => Except.error "never called") (fun _ _ => Except.error "never called")
      [{ id := 1, username := "a", summary := "park", date := "", link := "" }] =
      Except.ok [] := by
  refine ⟨rfl, ?_⟩
  show find_all_relations "keyword"
    (fun _ _ => Except.error "never called") (fun _ _ => Except.error "never called")
    [{ id := 1, username := "a", summary := "park", date := "", link := "" }] =
    Except.ok []
  rfl

/-- **C8 (amended).** A *direct* call to `find_all_relations` with a
provider other than `anthropic`, `openai` or `keyword` raises
`ValueError` before any item is processed (the result is the same error
whatever the item list, in particular for no items at all); but the
`main` entry point never passes such a string through: its resolution
always yields one of the three recognized providers, replacing unknown
names by `keyword`. -/
theorem find_all_relations_unknown_provider (provider : String)
    (anthropicFinder openaiFinder : List Node → Node → Except String (List Rel))
    (items : List Node)
    (h1 : provider ≠ "anthropic") (h2 : provider ≠ "openai")
    (h3 : provider ≠ "keyword") :
    find_all_relations provider anthropicFinder openaiFinder items =
      Except.error ("Unsupported provider '" ++ provider ++
        "'. Expected anthropic, openai, or keyword.") ∧
    find_all_relations provider anthropicFinder openaiFinder items =
      find_all_relations provider anthropicFinder openaiFinder [] ∧
    (∀ argP envP a b c d,
      resolve_provider argP envP a b c d = "anthropic" ∨
      resolve_provider argP envP a b c d = "openai" ∨
      resolve_provider argP envP a b c d = "keyword") := by
  refine ⟨by simp [find_all_relations, h1, h2, h3], by simp [find_all_relations, h1, h2, h3], ?_⟩
  intro argP envP a b c d
  show normalize_provider _ = "anthropic" ∨ normalize_provider _ = "openai" ∨
    normalize_provider _ = "keyword"
  unfold normalize_provider
  split
  · next h => exact h
  · right; right; rfl

/-- Witness for C8's amended theorem at the concrete provider `grok`. -/
theorem find_all_relations_unknown_provider_witness :
    find_all_relations "grok" (fun _ _ => Except.ok []) (fun _ _ => Except.ok [])
      [{ id := 1, username := "a", summary := "s", date := "", link := "" }] =
      Except.error "Unsupported provider 'grok'. Expected anthropic, openai, or keyword." :=
  (find_all_relations_unknown_provider "grok" (fun _ _ => Except.ok [])
    (fun _ _ => Except.ok [])
    [{ id := 1, username := "a", summary := "s", date := "", link := "" }]
    (by decide) (by decide) (by decide)).1

/-- **C10.** `update_connections_json` with an empty connection list
returns before touching the document, leaving everything — the existing
edges included — unchanged; with a non-empty list it replaces the
`edges` field wholesale with the new records (never appending to the old
edges) and leaves `nodes` and all other fields as loaded. -/
theorem update_connections_json_spec (doc : GraphDoc) (connections : List Edge) :
    (connections = [] → update_connections_json doc connections = doc) ∧
    (connections ≠ [] →
      (update_connections_json doc connections).edges = connections ∧
      (update_connections_json doc connections).nodes = doc.nodes ∧
      (update_connections_json doc connections).extra = doc.extra) := by
  constructor
  · intro h
    simp [update_connections_json, h]
  · intro h
    refine ⟨?_, by simp [update_connections_json, h], by simp [update_connections_json, h]⟩
    simp only [update_connections_json, h, if_neg, reduceIte]
    exact List.map_id'' (fun _ => rfl) connections

/-- Witness for C10 at a concrete stored document: the empty update is
the identity and a singleton update replaces the old edges. -/
theorem update_connections_json_spec_witness :
    update_connections_json
      { nodes := [{ id := 1, username := "a", summary := "s", date := "", link := "" }],
        edges := [{ source_id := 7, target_id := 8, reason := "old" }],
        extra := [("metadata", "ctx")] } [] =
      { nodes := [{ id := 1, username := "a", summary := "s", date := "", link := "" }],
        edges := [{ source_id := 7, target_id := 8, reason := "old" }],
        extra := [("metadata", "ctx")] } ∧
    (update_connections_json
      { nodes := [{ id := 1, username := "a", summary := "s", date := "", link := "" }],
        edges := [{ source_id := 7, target_id := 8, reason := "old" }],
        extra := [("metadata", "ctx")] }
      [{ source_id := 1, target_id := 2, reason := "new" }]).edges =
      [{ source_id := 1, target_id := 2, reason := "new" }] :=
  ⟨(update_connections_json_spec _ []).1 rfl,
   ((update_connections_json_spec _ [{ source_id := 1, target_id := 2, reason := "new" }]).2
     (by simp)).1⟩

theorem any_containsSub_lower (s : String) :
    ∀ (ks : List String), (∀ kw ∈ ks, lowerChars kw = kw.data) →
      (ks.any (fun kw => containsSub (lowerChars s) kw.data)) =
      (ks.any (fun kw => containsSub (lowerChars s) (lowerChars kw)))
  | [], _ => rfl
  | k :: ks, h => by
    simp only [List.any_cons]
    rw [h k (List.mem_cons_self _ _),
      any_containsSub_lower s ks (fun kw hkw => h kw (List.mem_cons_of_mem _ hkw))]

theorem classifyFirst_of_lower_fixed (s : String) :
    ∀ (tbl : List (String × List String)),
      (∀ p ∈ tbl, ∀ kw ∈ p.2, lowerChars kw = kw.data) →
      (match tbl.find? (fun tk => tk.2.any (fun kw => containsSub (lowerChars s) kw.data)) with
       | some tk => tk.1
       | none => "Other") = classifyFirst s tbl
  | [], _ => rfl
  | (t, kws) :: rest, h => by
    have hkws : ∀ kw ∈ kws, lowerChars kw = kw.data :=
      fun kw hkw => h (t, kws) (List.mem_cons_self _ _) kw hkw
    have hmatch : (kws.any (fun kw => containsSub (lowerChars s) kw.data)) =
        (kws.any (fun kw => containsSub (lowerChars s) (lowerChars kw))) :=
      any_containsSub_lower s kws hkws
    rw [List.find?_cons]
    cases hb : kws.any (fun kw => containsSub (lowerChars s) kw.data) with
    | true =>
      simp only [classifyFirst, ← hmatch, hb, if_true]
    | false =>
      simp only [classifyFirst, ← hmatch, hb, Bool.false_eq_true, if_false]
      exact classifyFirst_of_lower_fixed s rest
        (fun p hp kw hkw => h p (List.mem_cons_of_mem _ hp) kw hkw)

/-- **C3.** `classify_node` is exactly the spec's classifier: it walks
the fixed ordered topic table and returns the first topic with a
case-insensitive substring match in the summary, `Other` when none
matches (`classify_spec` is written from the spec's words, lower-casing
both sides).  It is a pure total function of the summary text, so
identical text always yields the same — unique — topic. -/
theorem classify_node_eq_spec (s t : String) :
    classify_node s = classify_spec s ∧ (s = t → classify_node s = classify_node t) := by
  constructor
  · have h : ∀ p ∈ topic_keywords, ∀ kw ∈ p.2, lowerChars kw = kw.data := by decide
    exact classifyFirst_of_lower_fixed s topic_keywords h
  · intro h
    rw [h]

/-- Witness for C3: concrete classifications, computed through the
spec-side classifier via the refinement theorem.  `buses` matches the
Transit keyword `bus` before any Safety keyword is reached (table
order), and unmatched text falls through to `Other`. -/
theorem classify_node_eq_spec_witness :
    classify_node "More housing NOW" = "Housing" ∧
    classify_node "more police on buses" = "Transit" ∧
    classify_node "qwerty" = "Other" :=
  ⟨(classify_node_eq_spec "More housing NOW" "").1.trans (by decide),
   (classify_node_eq_spec "more police on buses" "").1.trans (by decide),
   (classify_node_eq_spec "qwerty" "").1.trans (by decide)⟩

theorem keywordSimilarities_mem {items : List Node} {target : Node}
    {s : ℚ × Finset String × Node} (h : s ∈ keywordSimilarities items target) :
    s.2.2 ∈ items ∧ s.2.2.id ≠ target.id ∧
    tokenize_summary s.2.2.summary ≠ ∅ ∧
    s.2.1 = tokenize_summary target.summary ∩ tokenize_summary s.2.2.summary ∧
    s.2.1 ≠ ∅ ∧
    s.1 = (s.2.1.card : ℚ) /
      (min (tokenize_summary target.summary).card (tokenize_summary s.2.2.summary).card : ℚ) := by
  simp only [keywordSimilarities, List.mem_filterMap] at h
  obtain ⟨item, hitem, hf⟩ := h
  by_cases h1 : item.id = target.id
  · simp [h1] at hf
  · rw [if_neg h1] at hf
    by_cases h2 : tokenize_summary item.summary = ∅
    · simp [h2] at hf
    · rw [if_neg h2] at hf
      by_cases h3 : tokenize_summary target.summary ∩ tokenize_summary item.summary = ∅
      · simp [h3] at hf
      · rw [if_neg h3] at hf
        have hseq := Option.some.inj hf
        subst hseq
        exact ⟨hitem, h1, h2, rfl, h3, rfl⟩

/-- **C6.** `find_relations_keyword` returns at most 5 relations; a
target with an empty token set — in particular an empty summary — yields
`[]` outright (no division is ever attempted on it); and the output is
the image of a ≤-5-element list of scored candidates, sorted descending
by score, where every candidate is a non-target item from the input with
a non-empty token set and a non-empty overlap, its score is
|overlap| / min(|target tokens|, |candidate tokens|), and its reason
string lists the shared keywords in sorted order.  In particular the
target itself never appears among the returned relations. -/
theorem find_relations_keyword_spec (items : List Node) (target : Node) :
    (find_relations_keyword items target).length ≤ 5 ∧
    (tokenize_summary target.summary = ∅ → find_relations_keyword items target = []) ∧
    (target.summary = "" → find_relations_keyword items target = []) ∧
    (∃ tops : List (ℚ × Finset String × Node),
      find_relations_keyword items target =
        tops.map (fun s => { id := s.2.2.id, reason := keywordReason s.2.1 }) ∧
      tops.length ≤ 5 ∧
      List.Pairwise (fun a b : ℚ × Finset String × Node => b.1 ≤ a.1) tops ∧
      (∀ s ∈ tops,
        s.2.2 ∈ items ∧ s.2.2.id ≠ target.id ∧
        tokenize_summary s.2.2.summary ≠ ∅ ∧
        s.2.1 = tokenize_summary target.summary ∩ tokenize_summary s.2.2.summary ∧
        s.2.1 ≠ ∅ ∧
        s.1 = (s.2.1.card : ℚ) /
          (min (tokenize_summary target.summary).card
            (tokenize_summary s.2.2.summary).card : ℚ))) ∧
    (∀ r ∈ find_relations_keyword items target, r.id ≠ target.id) := by
  by_cases h0 : tokenize_summary target.summary = ∅
  · refine ⟨?_, fun _ => ?_, fun _ => ?_, ⟨[], ?_, ?_, ?_, ?_⟩, ?_⟩ <;>
      simp [find_relations_keyword, h0]
  · have hresult : find_relations_keyword items target =
        (((keywordSimilarities items target).mergeSort
          (fun a b => decide (b.1 ≤ a.1))).take 5).map
          (fun s => { id := s.2.2.id, reason := keywordReason s.2.1 }) := by
      rw [find_relations_keyword, if_neg h0]
    set tops := ((keywordSimilarities items target).mergeSort
      (fun a b => decide (b.1 ≤ a.1))).take 5 with htops
    have htopsmem : ∀ s ∈ tops,
        s.2.2 ∈ items ∧ s.2.2.id ≠ target.id ∧
        tokenize_summary s.2.2.summary ≠ ∅ ∧
        s.2.1 = tokenize_summary target.summary ∩ tokenize_summary s.2.2.summary ∧
        s.2.1 ≠ ∅ ∧
        s.1 = (s.2.1.card : ℚ) /
          (min (tokenize_summary target.summary).card
            (tokenize_summary s.2.2.summary).card : ℚ) := by
      intro s hs
      have hs1 : s ∈ (keywordSimilarities items target).mergeSort
          (fun a b => decide (b.1 ≤ a.1)) :=
        (List.take_sublist 5 _).mem hs
      have hs2 : s ∈ keywordSimilarities items target :=
        (List.mergeSort_perm (keywordSimilarities items target) _).mem_iff.mp hs1
      exact keywordSimilarities_mem hs2
    refine ⟨?_, fun h => absurd h h0, fun h => absurd (by rw [h]; rfl) h0,
      ⟨tops, hresult, ?_, ?_, htopsmem⟩, ?_⟩
    · rw [hresult, List.length_map]
      exact (List.length_take_le 5 _)
    · exact (List.length_take_le 5 _)
    · have hsorted : List.Pairwise
          (fun a b : ℚ × Finset String × Node => decide (b.1 ≤ a.1) = true)
          ((keywordSimilarities items target).mergeSort (fun a b => decide (b.1 ≤ a.1))) := by
        apply List.sorted_mergeSort
        · intro a b c hab hbc
          simp only [decide_eq_true_eq] at hab hbc ⊢
          exact le_trans hbc hab
        · intro a b
          simp only [Bool.or_eq_true, decide_eq_true_eq]
          exact le_total b.1 a.1
      have := hsorted.sublist (List.take_sublist 5 _)
      exact this.imp (fun h => by simpa using h)
    · intro r hr
      rw [hresult] at hr
      obtain ⟨s, hs, hrs⟩ := List.mem_map.mp hr
      have := (htopsmem s hs).2.1
      rw [← hrs]
      exact this

unseal List.merge List.mergeSort in
/-- Witness for C6: the empty-summary target yields no relations, and on
the spec's scenario items a concrete target yields a single relation
whose reason lists the shared keyword. -/
theorem find_relations_keyword_spec_witness :
    find_relations_keyword
      [{ id := 1, username := "a", summary := "wider sidewalks on 5th ave", date := "", link := "" },
       { id := 2, username := "b", summary := "make sidewalks bigger downtown", date := "", link := "" }]
      { id := 3, username := "c", summary := "", date := "", link := "" } = [] ∧
    (find_relations_keyword
      [{ id := 1, username := "a", summary := "wider sidewalks on 5th ave", date := "", link := "" },
       { id := 2, username := "b", summary := "make sidewalks bigger downtown", date := "", link := "" }]
      { id := 1, username := "a", summary := "wider sidewalks on 5th ave", date := "", link := "" }).length ≤ 5 ∧
    find_relations_keyword
      [{ id := 1, username := "a", summary := "wider sidewalks on 5th ave", date := "", link := "" },
       { id := 2, username := "b", summary := "make sidewalks bigger downtown", date := "", link := "" }]
      { id := 1, username := "a", summary := "wider sidewalks on 5th ave", date := "", link := "" } =
      [{ id := 2, reason := "Shares keywords: sidewalks" }] :=
  ⟨(find_relations_keyword_spec
      [{ id := 1, username := "a", summary := "wider sidewalks on 5th ave", date := "", link := "" },
       { id := 2, username := "b", summary := "make sidewalks bigger downtown", date := "", link := "" }]
      { id := 3, username := "c", summary := "", date := "", link := "" }).2.2.1 rfl,
   (find_relations_keyword_spec
      [{ id := 1, username := "a", summary := "wider sidewalks on 5th ave", date := "", link := "" },
       { id := 2, username := "b", summary := "make sidewalks bigger downtown", date := "", link := "" }]
      { id := 1, username := "a", summary := "wider sidewalks on 5th ave", date := "", link := "" }).1,
   rfl⟩

theorem pickNew_mem {topicNodes : List Node} {visited : Finset Int} {nid : Int}
    {n : Node} (h : pickNew topicNodes visited nid = some n) :
    n ∈ topicNodes ∧ n.id = nid ∧ nid ∉ visited := by
  unfold pickNew at h
  by_cases hv : nid ∈ visited
  · simp [hv] at h
  · rw [if_neg hv] at h
    refine ⟨List.mem_of_find?_eq_some h, ?_, hv⟩
    have := List.find?_some h
    simpa using this

theorem news_mem {adj : Int → Finset Int} {topicNodes : List Node}
    {visited : Finset Int} {x : Int} :
    ∀ n ∈ (neighborList adj x).filterMap (pickNew topicNodes visited),
      n ∈ topicNodes ∧ n.id ∉ visited := by
  intro n hn
  obtain ⟨nid, -, hp⟩ := List.mem_filterMap.mp hn
  obtain ⟨h1, h2, h3⟩ := pickNew_mem hp
  exact ⟨h1, h2 ▸ h3⟩

theorem news_ids_nodup (adj : Int → Finset Int) (topicNodes : List Node)
    (visited : Finset Int) (x : Int) :
    (((neighborList adj x).filterMap (pickNew topicNodes visited)).map Node.id).Nodup := by
  rw [List.map_filterMap]
  apply List.Nodup.filterMap
  · intro a a' b hb hb'
    simp only [Option.map_eq_some', Option.mem_def] at hb hb'
    obtain ⟨n, hn, hnb⟩ := hb
    obtain ⟨n', hn', hnb'⟩ := hb'
    have ha : n.id = a := (pickNew_mem hn).2.1
    have ha' : n'.id = a' := (pickNew_mem hn').2.1
    rw [← ha, hnb, ← ha', hnb']
  · exact Finset.sort_nodup _ _

theorem bfsLoop_spec (adj : Int → Finset Int) (topicNodes : List Node) :
    ∀ (fuel : Nat) (queue : List Node) (visited : Finset Int) (cluster : List Node),
      ∃ Δ : List Node,
        (bfsLoop adj topicNodes fuel queue visited cluster).1 = cluster ++ Δ ∧
        (bfsLoop adj topicNodes fuel queue visited cluster).2 =
          visited ∪ (Δ.map Node.id).toFinset ∧
        (∀ n ∈ Δ, n ∈ topicNodes ∧ n.id ∉ visited) ∧
        (Δ.map Node.id).Nodup
  | 0, queue, visited, cluster =>
    ⟨[], by simp [bfsLoop], by simp [bfsLoop], by simp, by simp⟩
  | fuel + 1, [], visited, cluster =>
    ⟨[], by simp [bfsLoop], by simp [bfsLoop], by simp, by simp⟩
  | fuel + 1, current :: rest, visited, cluster => by
    obtain ⟨Δ', h1, h2, h3, h4⟩ := bfsLoop_spec adj topicNodes fuel
      (rest ++ (neighborList adj current.id).filterMap (pickNew topicNodes visited))
      (visited ∪ ((((neighborList adj current.id).filterMap
        (pickNew topicNodes visited)).map Node.id).toFinset))
      (cluster ++ (neighborList adj current.id).filterMap (pickNew topicNodes visited))
    refine ⟨(neighborList adj current.id).filterMap (pickNew topicNodes visited) ++ Δ',
      ?_, ?_, ?_, ?_⟩
    · show (bfsLoop adj topicNodes (fuel + 1) (current :: rest) visited cluster).1 = _
      rw [bfsLoop, h1, List.append_assoc]
    · show (bfsLoop adj topicNodes (fuel + 1) (current :: rest) visited cluster).2 = _
      rw [bfsLoop, h2, List.map_append, List.toFinset_append, Finset.union_assoc]
    · intro n hn
      rcases List.mem_append.mp hn with hn | hn
      · exact news_mem n hn
      · obtain ⟨hm, hv⟩ := h3 n hn
        exact ⟨hm, fun hc => hv (Finset.mem_union_left _ hc)⟩
    · rw [List.map_append, List.nodup_append]
      refine ⟨news_ids_nodup adj topicNodes visited current.id, h4, ?_⟩
      intro a ha ha'
      obtain ⟨n, hn, hna⟩ := List.mem_map.mp ha'
      obtain ⟨-, hv⟩ := h3 n hn
      apply hv
      rw [hna]
      exact Finset.mem_union_right _ (List.mem_toFinset.mpr ha)

theorem componentsLoop_spec (adj : Int → Finset Int) (topicNodes : List Node) :
    ∀ (rem : List Node) (visited : Finset Int),
      (∀ n ∈ rem, n ∈ topicNodes) →
      (∀ n ∈ (componentsLoop adj topicNodes rem visited).flatten,
        n ∈ topicNodes ∧ n.id ∉ visited) ∧
      ((componentsLoop adj topicNodes rem visited).flatten.map Node.id).Nodup ∧
      (∀ n ∈ rem, n.id ∈ visited ∨
        n.id ∈ (componentsLoop adj topicNodes rem visited).flatten.map Node.id)
  | [], visited, _ => by simp [componentsLoop]
  | n :: rest, visited, hrem => by
    by_cases hv : n.id ∈ visited
    · have ih := componentsLoop_spec adj topicNodes rest visited
        (fun m hm => hrem m (List.mem_cons_of_mem _ hm))
      rw [componentsLoop, if_pos hv]
      exact ⟨ih.1, ih.2.1, fun m hm => by
        rcases List.mem_cons.mp hm with h | h
        · exact Or.inl (h ▸ hv)
        · exact ih.2.2 m h⟩
    · obtain ⟨Δb, hb1, hb2, hb3, hb4⟩ := bfsLoop_spec adj topicNodes
        (topicNodes.length + 1) [n] (insert n.id visited) [n]
      have ih := componentsLoop_spec adj topicNodes rest
        ((bfsLoop adj topicNodes (topicNodes.length + 1) [n] (insert n.id visited) [n]).2)
        (fun m hm => hrem m (List.mem_cons_of_mem _ hm))
      have hmemJ : ∀ m, m ∈ (componentsLoop adj topicNodes rest
          ((bfsLoop adj topicNodes (topicNodes.length + 1) [n]
            (insert n.id visited) [n]).2)).flatten →
          m.id ∉ insert n.id visited ∪ ((Δb.map Node.id).toFinset) := by
        intro m hm
        have h2 := (ih.1 m hm).2
        rw [hb2] at h2
        exact h2
      rw [componentsLoop, if_neg hv]
      simp only [List.flatten_cons]
      rw [hb1]
      simp only [List.singleton_append]
      refine ⟨?_, ?_, ?_⟩
      · intro m hm
        rcases List.mem_append.mp hm with hm | hm
        · rcases List.mem_cons.mp hm with h | h
          · subst h
            exact ⟨hrem m (List.mem_cons_self _ _), hv⟩
          · obtain ⟨hm1, hm2⟩ := hb3 m h
            exact ⟨hm1, fun hc => hm2 (Finset.mem_insert_of_mem hc)⟩
        · obtain ⟨hm1, hm2⟩ := ih.1 m hm
          rw [hb2] at hm2
          exact ⟨hm1, fun hc => hm2 (Finset.mem_union_left _ (Finset.mem_insert_of_mem hc))⟩
      · rw [List.map_append, List.nodup_append]
        refine ⟨?_, ih.2.1, ?_⟩
        · rw [List.map_cons, List.nodup_cons]
          refine ⟨?_, hb4⟩
          intro hc
          obtain ⟨m, hm, hmn⟩ := List.mem_map.mp hc
          exact (hb3 m hm).2 (hmn ▸ Finset.mem_insert_self _ _)
        · intro a ha ha'
          obtain ⟨m, hm, hma⟩ := List.mem_map.mp ha'
          apply hmemJ m hm
          rw [hma]
          rcases List.mem_cons.mp (by simpa using ha : a ∈ n.id :: Δb.map Node.id) with h | h
          · exact Finset.mem_union_left _ (h ▸ Finset.mem_insert_self _ _)
          · exact Finset.mem_union_right _ (List.mem_toFinset.mpr h)
      · intro m hm
        rcases List.mem_cons.mp hm with h | h
        · subst h
          right
          rw [List.map_append, List.map_cons]
          exact List.mem_append.mpr (Or.inl (List.mem_cons_self _ _))
        · rcases ih.2.2 m h with hc | hc
          · rw [hb2] at hc
            rcases Finset.mem_union.mp hc with hc | hc
            · rcases Finset.mem_insert.mp hc with hc | hc
              · right
                rw [List.map_append, List.map_cons, hc]
                exact List.mem_append.mpr (Or.inl (List.mem_cons_self _ _))
              · exact Or.inl hc
            · right
              rw [List.map_append, List.map_cons]
              exact List.mem_append.mpr (Or.inl
                (List.mem_cons_of_mem _ (List.mem_toFinset.mp hc)))
          · right
            rw [List.map_append]
            exact List.mem_append.mpr (Or.inr hc)

theorem group_components_flatten_perm (adj : Int → Finset Int) (topicNodes : List Node)
    (hnd : (topicNodes.map Node.id).Nodup) :
    (group_components adj topicNodes).flatten.Perm topicNodes := by
  obtain ⟨h1, h2, h3⟩ := componentsLoop_spec adj topicNodes topicNodes ∅ (fun n h => h)
  have hsubJ : (componentsLoop adj topicNodes topicNodes ∅).flatten ⊆ topicNodes :=
    fun n hn => (h1 n hn).1
  have hndJ : (componentsLoop adj topicNodes topicNodes ∅).flatten.Nodup :=
    List.Nodup.of_map _ h2
  have hndT : topicNodes.Nodup := List.Nodup.of_map _ hnd
  have hsubT : topicNodes ⊆ (componentsLoop adj topicNodes topicNodes ∅).flatten := by
    intro n hn
    rcases h3 n hn with hc | hc
    · exact absurd hc (Finset.not_mem_empty _)
    · obtain ⟨m, hm, hmn⟩ := List.mem_map.mp hc
      have : m = n := List.inj_on_of_nodup_map hnd (hsubJ hm) hn hmn
      exact this ▸ hm
  exact (List.subperm_of_subset hndJ hsubJ).antisymm (List.subperm_of_subset hndT hsubT)

theorem group_components_mem (adj : Int → Finset Int) (topicNodes : List Node) :
    ∀ comp ∈ group_components adj topicNodes, ∀ n ∈ comp, n ∈ topicNodes := by
  intro comp hcomp n hn
  have h1 := (componentsLoop_spec adj topicNodes topicNodes ∅ (fun m h => h)).1
  exact (h1 n (List.mem_flatten.mpr ⟨comp, hcomp, hn⟩)).1

theorem insertGroup_flatten_perm (t : String) (n : Node) :
    ∀ (gs : List (String × List Node)),
      ((insertGroup gs t n).map Prod.snd).flatten.Perm
        ((gs.map Prod.snd).flatten ++ [n])
  | [] => by simp [insertGroup]
  | (t', ns) :: rest => by
    by_cases h : t' = t
    · rw [insertGroup, if_pos h]
      simp only [List.map_cons, List.flatten_cons]
      rw [List.append_assoc, List.append_assoc]
      exact List.Perm.append_left ns (List.perm_append_comm)
    · rw [insertGroup, if_neg h]
      simp only [List.map_cons, List.flatten_cons]
      rw [List.append_assoc]
      exact List.Perm.append_left ns (insertGroup_flatten_perm t n rest)

theorem topic_groups_foldl_perm :
    ∀ (l : List Node) (gs : List (String × List Node)),
      ((l.foldl (fun gs n => insertGroup gs (classify_node n.summary) n) gs).map
        Prod.snd).flatten.Perm ((gs.map Prod.snd).flatten ++ l)
  | [], gs => by simp
  | n :: rest, gs => by
    simp only [List.foldl_cons]
    have ih := topic_groups_foldl_perm rest (insertGroup gs (classify_node n.summary) n)
    refine ih.trans ?_
    have h1 := insertGroup_flatten_perm (classify_node n.summary) n gs
    refine (h1.append_right rest).trans ?_
    rw [List.append_assoc, List.singleton_append]

theorem topic_groups_flatten_perm (nodes : List Node) :
    ((topic_groups nodes).map Prod.snd).flatten.Perm nodes := by
  have := topic_groups_foldl_perm nodes []
  simpa [topic_groups] using this

theorem insertGroup_classified {t : String} {n : Node}
    (hn : classify_node n.summary = t) :
    ∀ (gs : List (String × List Node)),
      (∀ p ∈ gs, ∀ m ∈ p.2, classify_node m.summary = p.1) →
      ∀ p ∈ insertGroup gs t n, ∀ m ∈ p.2, classify_node m.summary = p.1
  | [], _ => by
    intro p hp m hm
    simp only [insertGroup, List.mem_singleton] at hp
    subst hp
    simp only [List.mem_singleton] at hm
    subst hm
    exact hn
  | (t', ns) :: rest, h => by
    by_cases ht : t' = t
    · rw [insertGroup, if_pos ht]
      intro p hp m hm
      rcases List.mem_cons.mp hp with rfl | hp
      · rcases List.mem_append.mp hm with hm | hm
        · exact h (t', ns) (List.mem_cons_self _ _) m hm
        · rw [List.mem_singleton] at hm
          subst hm
          rw [hn, ht]
      · exact h p (List.mem_cons_of_mem _ hp) m hm
    · rw [insertGroup, if_neg ht]
      intro p hp m hm
      rcases List.mem_cons.mp hp with rfl | hp
      · exact h (t', ns) (List.mem_cons_self _ _) m hm
      · exact insertGroup_classified hn rest
          (fun q hq => h q (List.mem_cons_of_mem _ hq)) p hp m hm

theorem topic_groups_foldl_classified :
    ∀ (l : List Node) (gs : List (String × List Node)),
      (∀ p ∈ gs, ∀ m ∈ p.2, classify_node m.summary = p.1) →
      ∀ p ∈ l.foldl (fun gs n => insertGroup gs (classify_node n.summary) n) gs,
        ∀ m ∈ p.2, classify_node m.summary = p.1
  | [], _, h => h
  | n :: rest, gs, h => by
    simp only [List.foldl_cons]
    exact topic_groups_foldl_classified rest _ (insertGroup_classified rfl gs h)

theorem topic_groups_classified (nodes : List Node) :
    ∀ p ∈ topic_groups nodes, ∀ m ∈ p.2, classify_node m.summary = p.1 :=
  topic_groups_foldl_classified nodes [] (by simp)

theorem numberClusters_mem {t : String} {start : Nat} {comps : List (List Node)}
    {c : Cluster} (h : c ∈ numberClusters t start comps) :
    c.topic = t ∧ c.nodes ∈ comps := by
  obtain ⟨p, hp, hc⟩ := List.mem_map.mp h
  refine ⟨by rw [← hc], ?_⟩
  rw [← hc]
  show p.2 ∈ comps
  have h2 := List.enum_map_snd comps
  exact h2 ▸ List.mem_map_of_mem Prod.snd hp

theorem numberClusters_map_nodes (t : String) (start : Nat)
    (comps : List (List Node)) :
    (numberClusters t start comps).map Cluster.nodes = comps := by
  rw [numberClusters, List.map_map]
  exact List.enum_map_snd comps

theorem clustersFromGroups_flatten_perm (adj : Int → Finset Int) :
    ∀ (cid : Nat) (groups : List (String × List Node)),
      (∀ p ∈ groups, (p.2.map Node.id).Nodup) →
      ((clustersFromGroups adj cid groups).map Cluster.nodes).flatten.Perm
        ((groups.map Prod.snd).flatten)
  | _, [], _ => by simp [clustersFromGroups]
  | cid, (t, tns) :: rest, h => by
    have htail := fun p hp => h p (List.mem_cons_of_mem _ hp)
    by_cases hle : tns.length ≤ 2
    · rw [clustersFromGroups, if_pos hle]
      simp only [List.map_cons, List.flatten_cons]
      exact (clustersFromGroups_flatten_perm adj (cid + 1) rest htail).append_left tns
    · rw [clustersFromGroups, if_neg hle]
      simp only [List.map_cons, List.flatten_cons, List.map_append, List.flatten_append]
      rw [numberClusters_map_nodes]
      exact (group_components_flatten_perm adj tns
        (h (t, tns) (List.mem_cons_self _ _))).append
        (clustersFromGroups_flatten_perm adj _ rest htail)

theorem clustersFromGroups_topics (adj : Int → Finset Int) :
    ∀ (cid : Nat) (groups : List (String × List Node)),
      (∀ p ∈ groups, ∀ m ∈ p.2, classify_node m.summary = p.1) →
      ∀ c ∈ clustersFromGroups adj cid groups, ∀ n ∈ c.nodes,
        classify_node n.summary = c.topic
  | _, [], _ => by simp [clustersFromGroups]
  | cid, (t, tns) :: rest, h => by
    have htail := fun p hp => h p (List.mem_cons_of_mem _ hp)
    by_cases hle : tns.length ≤ 2
    · rw [clustersFromGroups, if_pos hle]
      intro c hc n hn
      rcases List.mem_cons.mp hc with rfl | hc
      · exact h (t, tns) (List.mem_cons_self _ _) n hn
      · exact clustersFromGroups_topics adj (cid + 1) rest htail c hc n hn
    · rw [clustersFromGroups, if_neg hle]
      intro c hc n hn
      rcases List.mem_append.mp hc with hc | hc
      · obtain ⟨htopic, hcomp⟩ := numberClusters_mem hc
        rw [htopic]
        exact h (t, tns) (List.mem_cons_self _ _) n
          (group_components_mem adj tns c.nodes hcomp n hn)
      · exact clustersFromGroups_topics adj _ rest htail c hc n hn

theorem clustersFromGroups_nodes_sub (adj : Int → Finset Int) :
    ∀ (cid : Nat) (groups : List (String × List Node)),
      ∀ c ∈ clustersFromGroups adj cid groups, ∀ n ∈ c.nodes,
        ∃ p ∈ groups, n ∈ p.2
  | _, [], _ => by simp [clustersFromGroups]
  | cid, (t, tns) :: rest, c => by
    by_cases hle : tns.length ≤ 2
    · rw [clustersFromGroups, if_pos hle]
      intro hc n hn
      rcases List.mem_cons.mp hc with rfl | hc
      · exact ⟨(t, tns), List.mem_cons_self _ _, hn⟩
      · obtain ⟨p, hp, hnp⟩ := clustersFromGroups_nodes_sub adj (cid + 1) rest c hc n hn
        exact ⟨p, List.mem_cons_of_mem _ hp, hnp⟩
    · rw [clustersFromGroups, if_neg hle]
      intro hc n hn
      rcases List.mem_append.mp hc with hc | hc
      · obtain ⟨-, hcomp⟩ := numberClusters_mem hc
        exact ⟨(t, tns), List.mem_cons_self _ _,
          group_components_mem adj tns c.nodes hcomp n hn⟩
      · obtain ⟨p, hp, hnp⟩ := clustersFromGroups_nodes_sub adj _ rest c hc n hn
        exact ⟨p, List.mem_cons_of_mem _ hp, hnp⟩

/-- **C1.** For every input graph whose nodes carry distinct ids, the
clusters returned by `detect_clusters` form a partition of the input
nodes: the concatenation of all cluster node lists is a permutation of
the input node list, and every node belongs to exactly one cluster — none
is omitted, none appears in two. -/
theorem detect_clusters_partition (nodes : List Node) (edges : List Edge)
    (hnd : (nodes.map Node.id).Nodup) :
    ((detect_clusters nodes edges).map Cluster.nodes).flatten.Perm nodes ∧
    ∀ n ∈ nodes, ∃! c, c ∈ detect_clusters nodes edges ∧ n ∈ c.nodes := by
  have hgroups : ∀ p ∈ topic_groups nodes, (p.2.map Node.id).Nodup := by
    intro p hp
    have hflat : (((topic_groups nodes).map Prod.snd).flatten.map Node.id).Nodup :=
      ((topic_groups_flatten_perm nodes).map Node.id).nodup_iff.mpr hnd
    have hsub : p.2.Sublist ((topic_groups nodes).map Prod.snd).flatten :=
      List.sublist_flatten_of_mem (List.mem_map_of_mem Prod.snd hp)
    exact hflat.sublist (hsub.map Node.id)
  have hperm : ((detect_clusters nodes edges).map Cluster.nodes).flatten.Perm nodes :=
    (clustersFromGroups_flatten_perm (build_adjacency edges) 0 (topic_groups nodes)
      hgroups).trans (topic_groups_flatten_perm nodes)
  refine ⟨hperm, ?_⟩
  have hndflat : ((detect_clusters nodes edges).map Cluster.nodes).flatten.Nodup :=
    List.Nodup.of_map Node.id ((hperm.map Node.id).nodup_iff.mpr hnd)
  obtain ⟨-, hPD⟩ := List.nodup_flatten.mp hndflat
  have hPDc : List.Pairwise (fun c c' : Cluster => c.nodes.Disjoint c'.nodes)
      (detect_clusters nodes edges) := List.pairwise_map.mp hPD
  intro n hn
  obtain ⟨l, hl, hnl⟩ := List.mem_flatten.mp (hperm.mem_iff.mpr hn)
  obtain ⟨c, hc, hcl⟩ := List.mem_map.mp hl
  refine ⟨c, ⟨hc, hcl ▸ hnl⟩, ?_⟩
  rintro c' ⟨hc', hnc'⟩
  by_contra hne
  exact List.Pairwise.forall (fun a b hab => List.Disjoint.symm hab) hPDc hc' hc hne
    hnc' (hcl ▸ hnl)

/-- Witness for C1: the spec's three-item scenario — the clusters of the
concrete graph partition its node list. -/
theorem detect_clusters_partition_witness :
    ((detect_clusters
      [{ id := 1, username := "a", summary := "wider sidewalks on 5th ave", date := "", link := "" },
       { id := 2, username := "b", summary := "make sidewalks bigger downtown", date := "", link := "" },
       { id := 3, username := "c", summary := "more police patrols", date := "", link := "" }]
      [{ source_id := 1, target_id := 2, reason := "shares keywords: sidewalks" }]).map
        Cluster.nodes).flatten.Perm
      [{ id := 1, username := "a", summary := "wider sidewalks on 5th ave", date := "", link := "" },
       { id := 2, username := "b", summary := "make sidewalks bigger downtown", date := "", link := "" },
       { id := 3, username := "c", summary := "more police patrols", date := "", link := "" }] :=
  (detect_clusters_partition
    [{ id := 1, username := "a", summary := "wider sidewalks on 5th ave", date := "", link := "" },
     { id := 2, username := "b", summary := "make sidewalks bigger downtown", date := "", link := "" },
     { id := 3, username := "c", summary := "more police patrols", date := "", link := "" }]
    [{ source_id := 1, target_id := 2, reason := "shares keywords: sidewalks" }]
    (by decide)).1

/-- **C2.** Every cluster produced by `detect_clusters` is
topic-homogeneous: each of its nodes classifies to the cluster's topic,
so two items assigned different coarse topics are never placed in the
same cluster, whatever the edges between them — BFS only follows
neighbors found in the same topic group. -/
theorem detect_clusters_intra_topic (nodes : List Node) (edges : List Edge) :
    (∀ c ∈ detect_clusters nodes edges, ∀ n ∈ c.nodes,
      classify_node n.summary = c.topic) ∧
    (∀ c ∈ detect_clusters nodes edges, ∀ a ∈ c.nodes, ∀ b ∈ c.nodes,
      classify_node a.summary = classify_node b.summary) := by
  have h := clustersFromGroups_topics (build_adjacency edges) 0 (topic_groups nodes)
    (topic_groups_classified nodes)
  exact ⟨h, fun c hc a ha b hb => (h c hc a ha).trans (h c hc b hb).symm⟩

/-- Witness for C2: a direct edge between the sidewalk item 1 and the
police item 3 does not merge them — each lands in a cluster tagged with
its own topic, obtained by instantiating the theorem at the concrete
graph. -/
theorem detect_clusters_intra_topic_witness :
    classify_node "wider sidewalks on 5th ave" = "Sidewalks" ∧
    classify_node "more police patrols" = "Safety" :=
  ⟨(detect_clusters_intra_topic
      [{ id := 1, username := "a", summary := "wider sidewalks on 5th ave", date := "", link := "" },
       { id := 3, username := "c", summary := "more police patrols", date := "", link := "" }]
      [{ source_id := 1, target_id := 3, reason := "direct cross-topic edge" }]).1
    { id := 0, topic := "Sidewalks",
      nodes := [{ id := 1, username := "a", summary := "wider sidewalks on 5th ave", date := "", link := "" }] }
    (by decide)
    { id := 1, username := "a", summary := "wider sidewalks on 5th ave", date := "", link := "" }
    (by decide),
   (detect_clusters_intra_topic
      [{ id := 1, username := "a", summary := "wider sidewalks on 5th ave", date := "", link := "" },
       { id := 3, username := "c", summary := "more police patrols", date := "", link := "" }]
      [{ source_id := 1, target_id := 3, reason := "direct cross-topic edge" }]).1
    { id := 1, topic := "Safety",
      nodes := [{ id := 3, username := "c", summary := "more police patrols", date := "", link := "" }] }
    (by decide)
    { id := 3, username := "c", summary := "more police patrols", date := "", link := "" }
    (by decide)⟩

/-- **C9 counterexample.** A self-loop edge `(1,1)` makes id 1 its own
neighbor in the adjacency map, and the dangling endpoint 2 of edge
`(1,2)` — no node has id 2 — is *not* dropped: it appears both as a
neighbor of 1 and as a key with a non-empty neighbor set. -/
theorem build_adjacency_counterexample :
    ((1 : Int) ∈ build_adjacency
      [{ source_id := 1, target_id := 1, reason := "self" },
       { source_id := 1, target_id := 2, reason := "dangling" }] 1) ∧
    ((2 : Int) ∈ build_adjacency
      [{ source_id := 1, target_id := 1, reason := "self" },
       { source_id := 1, target_id := 2, reason := "dangling" }] 1) ∧
    ((2 : Int) ∉ ([{ id := 1, username := "a", summary := "parks", date := "", link := "" }] :
      List Node).map Node.id) ∧
    build_adjacency
      [{ source_id := 1, target_id := 1, reason := "self" },
       { source_id := 1, target_id := 2, reason := "dangling" }] 2 ≠ ∅ := by
  decide

/-- **C9 (amended).** Every adjacency entry comes from an input edge, so
an id is its own neighbor only when the edge list itself contains a
self-loop edge — edges with distinct endpoints never create one.
Dangling endpoints are kept in the adjacency map rather than dropped,
but traversal ignores them: every node of every cluster returned by
`detect_clusters` is an input node; and the construction is a total
function, so it never raises. -/
theorem build_adjacency_spec (nodes : List Node) (edges : List Edge) :
    (∀ x y : Int, y ∈ build_adjacency edges x →
      ∃ e ∈ edges, (e.source_id = x ∧ e.target_id = y) ∨
        (e.source_id = y ∧ e.target_id = x)) ∧
    (∀ x : Int, x ∈ build_adjacency edges x →
      ∃ e ∈ edges, e.source_id = x ∧ e.target_id = x) ∧
    (∀ c ∈ detect_clusters nodes edges, ∀ n ∈ c.nodes, n ∈ nodes) := by
  have hmem : ∀ x y : Int, y ∈ build_adjacency edges x →
      ∃ e ∈ edges, (e.source_id = x ∧ e.target_id = y) ∨
        (e.source_id = y ∧ e.target_id = x) := by
    intro x y hy
    simp only [build_adjacency, List.mem_toFinset, List.mem_append, List.mem_map,
      List.mem_filter, decide_eq_true_eq] at hy
    rcases hy with ⟨e, ⟨he, hex⟩, hey⟩ | ⟨e, ⟨he, hex⟩, hey⟩
    · exact ⟨e, he, Or.inl ⟨hex, hey⟩⟩
    · exact ⟨e, he, Or.inr ⟨hey, hex⟩⟩
  refine ⟨hmem, ?_, ?_⟩
  · intro x hx
    obtain ⟨e, he, h⟩ := hmem x x hx
    rcases h with ⟨h1, h2⟩ | ⟨h1, h2⟩ <;> exact ⟨e, he, h1, h2⟩
  · intro c hc n hn
    obtain ⟨p, hp, hnp⟩ := clustersFromGroups_nodes_sub (build_adjacency edges) 0
      (topic_groups nodes) c hc n hn
    exact (topic_groups_flatten_perm nodes).mem_iff.mp
      (List.mem_flatten.mpr ⟨p.2, List.mem_map_of_mem Prod.snd hp, hnp⟩)

/-- Witness for C9's amended theorem: on the concrete graph with a
self-loop edge, the self-loop in the adjacency map traces back to that
explicit edge. -/
theorem build_adjacency_spec_witness :
    ∃ e ∈ ([{ source_id := 1, target_id := 1, reason := "self" },
       { source_id := 1, target_id := 2, reason := "dangling" }] : List Edge),
      e.source_id = 1 ∧ e.target_id = 1 :=
  (build_adjacency_spec
    [{ id := 1, username := "a", summary := "parks", date := "", link := "" }]
    [{ source_id := 1, target_id := 1, reason := "self" },
     { source_id := 1, target_id := 2, reason := "dangling" }]).2.1 1 (by decide)

end CityVoice
